import Mathlib

/-!
Shallow embedding of the seat-booking lifecycle engine of the
movie-booking backend (Django): `bookings/views.py`,
`bookings/serializers.py`, `bookings/models.py`, `bookings/signals.py`
and `movies/models.py`.

Conventions of the embedding:
* money is held in integer paise (`Nat`), matching two-decimal
  `Decimal` fields; percentages and derived refund amounts that the
  source computes with `Decimal` division are held in `Rat`;
* wall-clock instants are `Int` seconds;
* each Django view method becomes a function `St -> ... -> St x Resp`;
  `Booking.save` / `Transaction.save` are modelled together with the
  `pre_save`/`post_save` signal receivers of `bookings/signals.py`,
  which the Django app fires on every save;
* the ORM row for the booking under consideration is `St.booking`;
  python in-memory model instances are passed around explicitly where
  the source relies on instance identity / relation caching.
-/

namespace MovieBooking

/-- Booking lifecycle status (`Booking.STATUS_CHOICES`). -/
inductive BStatus
  | pending
  | confirmed
  | cancelled
  | expired
  | failed
deriving DecidableEq, Repr

/-- Transaction status (`Transaction.STATUS_CHOICES`). -/
inductive TStatus
  | initiated
  | waiting
  | success
  | tfailed
  | tcancelled
  | refunded
deriving DecidableEq, Repr

/-- Seat tier (`Seat.SEAT_TYPES`). -/
inductive SeatType
  | regular
  | premium
  | recliner
  | couple
deriving DecidableEq, Repr

/-- One `movies.Seat` row: identity, owning screen, tier and the two
availability flags. -/
structure SeatRec where
  sid : Nat
  screen : Nat
  seatType : SeatType
  isAvailable : Bool
  isBlocked : Bool
deriving DecidableEq, Repr

/-- The scheduling and pricing facts of one `movies.Showtime` row that
the booking engine reads. -/
structure ShowtimeRec where
  screen : Nat
  isActive : Bool
  showStart : Int
  basePrice : Nat
  premiumPrice : Nat
  reclinerPrice : Nat
deriving DecidableEq, Repr

/-- `Showtime.get_price_for_seat`: recliner and premium tiers map to
their dedicated prices, every other tier maps to the base price. -/
def getPriceForSeat (st : ShowtimeRec) (s : SeatRec) : Nat :=
  match s.seatType with
  | .recliner => st.reclinerPrice
  | .premium => st.premiumPrice
  | _ => st.basePrice

/-- Python `round(x, 2)` on an exact two-extra-digit `Decimal` value:
round half to even.  The argument is in hundredths of a paisa, the
result in paise. -/
def roundHalfEvenDiv100 (n : Nat) : Nat :=
  let q := n / 100
  let r := n % 100
  if r < 50 then q
  else if 50 < r then q + 1
  else if q % 2 = 0 then q else q + 1

/-- The 18 percent GST of `BookingCreateSerializer.create`:
`round(subtotal * Decimal(0.18), 2)`, in paise. -/
def taxOn (subtotalPaise : Nat) : Nat :=
  roundHalfEvenDiv100 (subtotalPaise * 18)

/-- The fixed convenience fee `Decimal(20.00)`, in paise. -/
def convenienceFeePaise : Nat := 2000

/-- Who wrote a history row: `changed_by` is the requesting user for
rows written by views, and null for rows written by signal
receivers. -/
inductive Actor
  | system
  | user
deriving DecidableEq, Repr

/-- The `reason` text of a history row, abstracted to its source
site. -/
inductive HReason
  | bookingCreated
  | statusChanged
  | paymentCompleted
  | clientProvided
deriving DecidableEq, Repr

/-- One `BookingHistory` row; `prev = none` renders the empty
`previous_status` string written at creation. -/
structure HistRec where
  prev : Option BStatus
  next : BStatus
  actor : Actor
  reason : HReason
deriving DecidableEq, Repr

/-- The `bookings.Booking` row fields the lifecycle engine reads and
writes. -/
structure BookingRec where
  status : BStatus
  seatIds : List Nat
  subtotal : Nat
  taxAmount : Nat
  convenienceFee : Nat
  totalAmount : Nat
  expiresAt : Int
  confirmedAt : Option Int
  cancelledAt : Option Int
deriving DecidableEq, Repr

/-- Predicate of the locked seat query in
`BookingCreateSerializer.create`: requested id, right screen,
available and not blocked. -/
def seatEligible (st : ShowtimeRec) (seatIds : List Nat) (s : SeatRec) : Bool :=
  decide (s.sid ∈ seatIds) && decide (s.screen = st.screen)
    && s.isAvailable && !s.isBlocked

/-- Result of `BookingCreateSerializer.create`: the seat store after
the request, the created booking if any, the history rows written by
the `post_save` signal, and whether the request succeeded.  On the
failure branch the enclosing `transaction.atomic` rolls every write
back, so the store is returned unchanged. -/
structure CreateOutcome where
  seats : List SeatRec
  booking : Option BookingRec
  history : List HistRec
  ok : Bool
deriving DecidableEq, Repr

/-- `BookingCreateSerializer.create` (serializers.py, the code run
after field validation, under `transaction.atomic` with
`select_for_update`): re-filter the requested seats against
availability, fail if any requested seat is missing from the filtered
set, otherwise price the selection, create the `pending` booking with
a 15 minute deadline, snapshot the selected seats on it, and flip the
selected seats to unavailable.  Creating the booking fires
`create_booking_history` (signals.py) with `created=True`, which
writes the creation history row. -/
def createBooking (st : ShowtimeRec) (seats : List SeatRec)
    (seatIds : List Nat) (now : Int) : CreateOutcome :=
  let sel := seats.filter (seatEligible st seatIds)
  if sel.length = seatIds.length then
    let subtotal := (sel.map (getPriceForSeat st)).sum
    let tax := taxOn subtotal
    let fee := convenienceFeePaise
    let b : BookingRec :=
      { status := .pending
        seatIds := sel.map SeatRec.sid
        subtotal := subtotal
        taxAmount := tax
        convenienceFee := fee
        totalAmount := subtotal + tax + fee
        expiresAt := now + 900
        confirmedAt := none
        cancelledAt := none }
    { seats := seats.map (fun s =>
        if seatEligible st seatIds s then { s with isAvailable := false } else s)
      booking := some b
      history := [⟨none, .pending, .system, .bookingCreated⟩]
      ok := true }
  else
    { seats := seats, booking := none, history := [], ok := false }

/-- `CreateBookingView.create` after its showtime guards: an inactive
showtime or one whose start is not strictly in the future fails
without touching anything; otherwise the serializer runs and, on
success, the view appends its own explicit creation history row
(`previous_status` empty, `new_status` pending, `changed_by` the
requesting user) in addition to the row the `post_save` signal
already wrote. -/
def createBookingView (st : ShowtimeRec) (seats : List SeatRec)
    (seatIds : List Nat) (now : Int) : CreateOutcome :=
  if !st.isActive then
    { seats := seats, booking := none, history := [], ok := false }
  else if st.showStart ≤ now then
    { seats := seats, booking := none, history := [], ok := false }
  else
    let r := createBooking st seats seatIds now
    if r.ok then
      { r with history := r.history ++ [⟨none, .pending, .user, .bookingCreated⟩] }
    else r

/-- One `bookings.Transaction` row. -/
structure TxnRec where
  tid : Nat
  status : TStatus
  amount : Nat
  completedAt : Option Int
deriving DecidableEq, Repr

/-- One `bookings.Refund` row (the fields the cancellation view
writes), plus the transaction it belongs to. -/
structure RefundRec where
  txnTid : Nat
  amount : Rat
  refundAmount : Rat
  cancellationFee : Rat
deriving DecidableEq, Repr

/-- One `bookings.CancellationPolicy` row.  `feePct` is the
two-decimal percentage value. -/
structure Policy where
  hoursBeforeShow : Nat
  feePct : Rat
  isRefundable : Bool
  isActive : Bool
deriving DecidableEq, Repr

/-- Notification tasks enqueued with `.delay(...)`. -/
inductive Notif
  | bookingConfirmed
  | bookingCancelled
deriving DecidableEq, Repr

/-- The database and task-queue state around one booking: the booking
row, its transactions, the seats of its screen, its history rows, the
enqueued notification e-mails, its refunds, the configured
cancellation policies, and the instant the booking's show starts. -/
structure St where
  booking : BookingRec
  txns : List TxnRec
  seats : List SeatRec
  history : List HistRec
  notifs : List Notif
  refunds : List RefundRec
  policies : List Policy
  showStart : Int
deriving DecidableEq, Repr

/-- `booking.seats.update(is_available=True)`: unconditionally flip
the booking's snapshotted seats back to available. -/
def releaseSeats (st : St) (ids : List Nat) : St :=
  { st with seats := st.seats.map (fun s =>
      if s.sid ∈ ids then { s with isAvailable := true } else s) }

/-- `Booking.save()` on an existing row, together with the signal
receivers of signals.py that fire on it, in registration order:
`track_booking_status_change` (pre-save, records whether the status
changed), `create_booking_history` (post-save, appends a history row
on a status change), `handle_booking_confirmation` (post-save, stamps
`confirmed_at` when a booking is saved confirmed without it) and
`handle_booking_cancellation` (post-save, releases the seats of a
cancelled booking and stamps `cancelled_at` when missing). -/
def bookingSave (st : St) (inst : BookingRec) (now : Int) : St :=
  let old := st.booking
  let st1 := { st with booking := inst }
  let st2 :=
    if old.status ≠ inst.status then
      { st1 with history :=
          st1.history ++ [⟨some old.status, inst.status, .system, .statusChanged⟩] }
    else st1
  let st3 :=
    if inst.status = .confirmed ∧ inst.confirmedAt = none then
      { st2 with booking := { st2.booking with confirmedAt := some now } }
    else st2
  if inst.status = .cancelled then
    let st4 := releaseSeats st3 inst.seatIds
    if inst.cancelledAt = none then
      { st4 with booking := { st4.booking with cancelledAt := some now } }
    else st4
  else st3

/-- The `post_save` receivers on `Transaction` (signals.py):
`handle_successful_payment` confirms a still-pending booking when a
transaction is saved with status success and enqueues the
confirmation e-mail; `handle_failed_payment` releases the seats of a
booking with no successful transaction and, when the deadline has not
yet passed, pushes it 15 minutes out.  `obs` is the `Booking` python
instance the receiver observes through `instance.booking` (cached or
freshly fetched, per call site); the possibly mutated instance is
returned along with the new state. -/
def txnPostSave (st : St) (t : TxnRec) (obs : BookingRec) (now : Int) :
    St × BookingRec :=
  let step1 : St × BookingRec :=
    if t.status = .success ∧ obs.status = .pending then
      let b := { obs with status := .confirmed, confirmedAt := some now }
      let st1 := bookingSave st b now
      ({ st1 with notifs := st1.notifs ++ [.bookingConfirmed] }, b)
    else (st, obs)
  let st1 := step1.1
  let obs1 := step1.2
  if t.status = .tfailed then
    if st1.txns.any (fun u => u.status = .success) then (st1, obs1)
    else
      let st2 := releaseSeats st1 obs1.seatIds
      if now < obs1.expiresAt then
        let b := { obs1 with expiresAt := now + 900 }
        (bookingSave st2 b now, b)
      else (st2, obs1)
  else (st1, obs1)

/-- Save an existing transaction row (write-back by `tid`), then run
the `post_save` receivers. -/
def transactionSave (st : St) (t : TxnRec) (obs : BookingRec) (now : Int) :
    St × BookingRec :=
  txnPostSave
    { st with txns := st.txns.map (fun u => if u.tid = t.tid then t else u) }
    t obs now

/-- `Transaction.objects.create(...)`: insert the row, then run the
same `post_save` receivers (their conditions ignore `created`). -/
def transactionCreate (st : St) (t : TxnRec) (obs : BookingRec) (now : Int) :
    St × BookingRec :=
  txnPostSave { st with txns := st.txns ++ [t] } t obs now

/-- `CancellationPolicy.get_applicable_policy` ordering step:
`order_by('-hours_before_show').first()` over the already filtered
rows — the policy with the greatest threshold. -/
def pickTopPolicy : List Policy → Option Policy
  | [] => none
  | p :: ps =>
    match pickTopPolicy ps with
    | none => some p
    | some q => if p.hoursBeforeShow < q.hoursBeforeShow then some q else some p

/-- `CancellationPolicy.get_applicable_policy(hours_before_show)`:
among active policies whose threshold is at most the hours remaining,
the one with the greatest threshold; none when no policy matches. -/
def getApplicablePolicy (ps : List Policy) (hoursBefore : Rat) : Option Policy :=
  pickTopPolicy (ps.filter (fun p =>
    p.isActive && decide ((p.hoursBeforeShow : Rat) ≤ hoursBefore)))

/-- Responses of the lifecycle endpoints, abstracted from HTTP. -/
inductive Resp
  | ok
  | notPending
  | expired
  | invalidTransaction
  | verificationFailed
  | cannotCancel
  | policyViolation
  | cancelled (refundAmount cancellationFee : Rat)
  | notFound
  | alreadyExtended
  | tooEarly
  | extended (newExpiresAt : Int)
  | serverError
deriving DecidableEq, Repr

/-- `InitiatePaymentView.create`: only pending bookings may pay; a
pending booking whose deadline has passed (`expires_at <= now`) is
marked expired, its seats are released and the request fails;
otherwise a fresh transaction is created for the booking's total. -/
def initiatePayment (st : St) (newTid : Nat) (now : Int) : St × Resp :=
  if st.booking.status ≠ .pending then (st, .notPending)
  else if st.booking.expiresAt ≤ now then
    let b := { st.booking with status := .expired }
    let st1 := bookingSave st b now
    (releaseSeats st1 b.seatIds, .expired)
  else
    let t : TxnRec :=
      { tid := newTid, status := .initiated
        amount := st.booking.totalAmount, completedAt := none }
    ((transactionCreate st t st.booking now).1, .ok)

/-- `ConfirmPaymentView.update`: look the transaction up; on a
verified payment mark it success (its `post_save` receiver observes
the booking freshly fetched from the database), then set the view's
booking instance confirmed and save it, append the view's explicit
history row (with hard-coded previous status pending) and enqueue the
confirmation e-mail; on failed verification mark the transaction
failed.  The view checks neither the booking's status nor its
deadline. -/
def confirmPayment (st : St) (tid : Nat) (verified : Bool) (now : Int) :
    St × Resp :=
  let b0 := st.booking
  match st.txns.find? (fun u => u.tid = tid) with
  | none => (st, .invalidTransaction)
  | some t =>
    if verified then
      let t' := { t with status := .success, completedAt := some now }
      let st1 := (transactionSave st t' st.booking now).1
      let b' := { b0 with status := .confirmed, confirmedAt := some now }
      let st2 := bookingSave st1 b' now
      let st3 : St := { st2 with history :=
        st2.history ++ [⟨some .pending, .confirmed, .user, .paymentCompleted⟩] }
      ({ st3 with notifs := st3.notifs ++ [.bookingConfirmed] }, .ok)
    else
      let t' := { t with status := .tfailed }
      ((transactionSave st t' st.booking now).1, .verificationFailed)

/-- Disposition a verified gateway webhook reports for a payment. -/
inductive WStatus
  | wsuccess
  | wfailed
  | wother
deriving DecidableEq, Repr

/-- The verified payload `handle_webhook` hands back to the view. -/
structure GatewayEvent where
  success : Bool
  wstatus : WStatus
  tid : Nat
deriving DecidableEq, Repr

/-- `payment_webhook`: on a verified event, look the transaction up
(a miss raises and yields a 500); on a success event stamp the
transaction success and the cached booking instance confirmed and
enqueue the confirmation e-mail; on a failure event mark the
transaction failed and release the seats; then save the transaction
(its receivers observe the cached, already mutated booking instance)
and save the booking.  No transaction or booking status is checked
before acting. -/
def paymentWebhook (st : St) (ev : GatewayEvent) (now : Int) : St × Resp :=
  if !ev.success then (st, .ok)
  else
    match st.txns.find? (fun u => u.tid = ev.tid) with
    | none => (st, .serverError)
    | some t =>
      let b := st.booking
      match ev.wstatus with
      | .wsuccess =>
        let t' := { t with status := .success, completedAt := some now }
        let b' := { b with status := .confirmed, confirmedAt := some now }
        let st1 := { st with notifs := st.notifs ++ [.bookingConfirmed] }
        let r := transactionSave st1 t' b' now
        (bookingSave r.1 r.2 now, .ok)
      | .wfailed =>
        let t' := { t with status := .tfailed }
        let st1 := releaseSeats st b.seatIds
        let r := transactionSave st1 t' b now
        (bookingSave r.1 r.2 now, .ok)
      | .wother =>
        let r := transactionSave st t b now
        (bookingSave r.1 r.2 now, .ok)

/-- The hours left before the show as the cancellation serializer
computes them: `(show_datetime - now).total_seconds() / 3600`. -/
def hoursBeforeShow (st : St) (now : Int) : Rat :=
  ((st.showStart - now : Int) : Rat) / 3600

/-- `CancelBookingView.update` together with
`BookingCancelSerializer.validate`: only pending or confirmed
bookings can cancel, and only under an applicable refundable policy;
then compute the fee split, save the booking cancelled (the signal
receivers append a history row and release the seats), release the
seats again, append the view's explicit history row, and — only if
the instance's status still reads confirmed, which it never does
after the assignment above — create the refund row for the
successful transaction. -/
def cancelBooking (st : St) (now : Int) : St × Resp :=
  if ¬(st.booking.status = .pending ∨ st.booking.status = .confirmed) then
    (st, .cannotCancel)
  else
    match getApplicablePolicy st.policies (hoursBeforeShow st now) with
    | none => (st, .policyViolation)
    | some p =>
      if !p.isRefundable then (st, .policyViolation)
      else
        let total : Rat := (st.booking.totalAmount : Rat)
        let fee : Rat := total * p.feePct / 100
        let refundAmt : Rat := total - fee
        let prev := st.booking.status
        let b' := { st.booking with status := .cancelled, cancelledAt := some now }
        let st1 := bookingSave st b' now
        let st2 := releaseSeats st1 b'.seatIds
        let st3 : St := { st2 with history :=
          st2.history ++ [⟨some prev, .cancelled, .user, .clientProvided⟩] }
        let st4 : St :=
          if b'.status = .confirmed then
            match st3.txns.find? (fun u => u.status = .success) with
            | some tx =>
              { st3 with refunds := st3.refunds ++
                  [{ txnTid := tx.tid, amount := total
                     refundAmount := refundAmt, cancellationFee := fee }] }
            | none => st3
          else st3
        ({ st4 with notifs := st4.notifs ++ [.bookingCancelled] },
         .cancelled refundAmt fee)

/-- `extend_booking_timer`: the booking is fetched with
`status='pending'` (404 otherwise).  The already-extended test reads
`hasattr(booking, '_timer_extended')` — an in-memory attribute the
`Booking` model has no column for, so a freshly fetched row never
carries it and the test is always false.  More than 120 seconds of
remaining time fails; otherwise the deadline becomes now plus 10
minutes. -/
def extendTimer (st : St) (now : Int) : St × Resp :=
  if st.booking.status ≠ .pending then (st, .notFound)
  else
    let fetchedHasTimerAttr := false
    if fetchedHasTimerAttr then (st, .alreadyExtended)
    else if 120 < st.booking.expiresAt - now then (st, .tooEarly)
    else
      let b' := { st.booking with expiresAt := now + 600 }
      (bookingSave st b' now, .extended (now + 600))

/-! Concrete fixtures for the closed theorems: a two-seat pending
booking priced at the Scenario A amounts with payment deadline 1000,
one initiated transaction (tid 7), a refundable four-hour 10 percent
policy, and a show starting at instant 20000. -/

/-- A held seat of the fixture booking. -/
def seatHeldA : SeatRec := ⟨1, 1, .regular, false, false⟩

/-- The second held seat of the fixture booking. -/
def seatHeldB : SeatRec := ⟨2, 1, .regular, false, false⟩

/-- The fixture pending booking row. -/
def pendingBooking : BookingRec :=
  { status := .pending, seatIds := [1, 2], subtotal := 30000
    taxAmount := 5400, convenienceFee := 2000, totalAmount := 37400
    expiresAt := 1000, confirmedAt := none, cancelledAt := none }

/-- The fixture refundable cancellation policy: threshold 4 hours,
fee 10 percent. -/
def basePolicy : Policy := ⟨4, 10, true, true⟩

/-- Fixture state: a freshly created pending booking with one
initiated transaction, right after creation wrote its two history
rows. -/
def pendingSt : St :=
  { booking := pendingBooking
    txns := [⟨7, .initiated, 37400, none⟩]
    seats := [seatHeldA, seatHeldB]
    history := [⟨none, .pending, .system, .bookingCreated⟩,
                ⟨none, .pending, .user, .bookingCreated⟩]
    notifs := []
    refunds := []
    policies := [basePolicy]
    showStart := 20000 }

/-- The fixture state after the first verified payment confirmation
at instant 500: booking confirmed, transaction 7 successful, the two
creation history rows followed by the two pending-to-confirmed rows
(one from the transaction signal, one written by the view) and the
two enqueued confirmation e-mails. -/
def confirmedSt : St :=
  { booking := { pendingBooking with status := .confirmed, confirmedAt := some 500 }
    txns := [⟨7, .success, 37400, some 500⟩]
    seats := [seatHeldA, seatHeldB]
    history := [⟨none, .pending, .system, .bookingCreated⟩,
                ⟨none, .pending, .user, .bookingCreated⟩,
                ⟨some .pending, .confirmed, .system, .statusChanged⟩,
                ⟨some .pending, .confirmed, .user, .paymentCompleted⟩]
    notifs := [.bookingConfirmed, .bookingConfirmed]
    refunds := []
    policies := [basePolicy]
    showStart := 20000 }

/-- The literal fixture above is exactly what the first verified
confirmation at instant 500 produces from the pending fixture. -/
lemma confirmedSt_is_first_confirm :
    (confirmPayment pendingSt 7 true 500).1 = confirmedSt := by decide

/-! Selection lemmas for `pickTopPolicy`, the embedding of
`order_by('-hours_before_show').first()`. -/

/-- An empty result only arises from an empty candidate list. -/
lemma pickTopPolicy_eq_none {l : List Policy} (h : pickTopPolicy l = none) :
    l = [] := by
  cases l with
  | nil => rfl
  | cons p ps =>
    exfalso
    unfold pickTopPolicy at h
    cases hps : pickTopPolicy ps with
    | none => simp [hps] at h
    | some q =>
      rw [hps] at h
      by_cases hlt : p.hoursBeforeShow < q.hoursBeforeShow <;> simp [hlt] at h

/-- The selected policy is one of the candidates. -/
lemma pickTopPolicy_mem {l : List Policy} {p : Policy}
    (h : pickTopPolicy l = some p) : p ∈ l := by
  induction l with
  | nil => simp [pickTopPolicy] at h
  | cons a ps ih =>
    unfold pickTopPolicy at h
    cases hps : pickTopPolicy ps with
    | none => rw [hps] at h; simp at h; simp [h]
    | some q =>
      rw [hps] at h
      by_cases hlt : a.hoursBeforeShow < q.hoursBeforeShow
      · simp [hlt] at h; subst h; exact List.mem_cons_of_mem _ (ih hps)
      · simp [hlt] at h; simp [h]

/-- The selected policy carries the greatest threshold among the
candidates. -/
lemma pickTopPolicy_max {l : List Policy} {p : Policy}
    (h : pickTopPolicy l = some p) :
    ∀ q ∈ l, q.hoursBeforeShow ≤ p.hoursBeforeShow := by
  induction l generalizing p with
  | nil => simp [pickTopPolicy] at h
  | cons a ps ih =>
    unfold pickTopPolicy at h
    cases hps : pickTopPolicy ps with
    | none =>
      rw [hps] at h; simp at h
      have : ps = [] := pickTopPolicy_eq_none hps
      subst this; subst h; intro q hq; simp at hq; simp [hq]
    | some r =>
      rw [hps] at h
      intro q hq
      rcases List.mem_cons.mp hq with hqa | hqps
      · subst hqa
        by_cases hlt : q.hoursBeforeShow < r.hoursBeforeShow
        · simp [hlt] at h; subst h; omega
        · simp [hlt] at h; subst h; omega
      · have hr := ih hps q hqps
        by_cases hlt : a.hoursBeforeShow < r.hoursBeforeShow
        · simp [hlt] at h; subst h; omega
        · simp [hlt] at h; subst h; omega

/-- C9: `get_applicable_policy(hoursBeforeShow)` returns, among the
active policies whose threshold is at most the hours remaining, one
carrying the greatest threshold, and none when no such policy
exists; and a cancellation request whose applicable policy is absent
or not refundable fails with the policy-violation error and leaves
the state unchanged. -/
theorem applicable_policy_selection :
    (∀ (ps : List Policy) (hrs : Rat) (p : Policy),
       getApplicablePolicy ps hrs = some p →
         p ∈ ps ∧ p.isActive = true ∧ (p.hoursBeforeShow : Rat) ≤ hrs ∧
         ∀ q ∈ ps, q.isActive = true → (q.hoursBeforeShow : Rat) ≤ hrs →
           q.hoursBeforeShow ≤ p.hoursBeforeShow) ∧
    (∀ (ps : List Policy) (hrs : Rat),
       getApplicablePolicy ps hrs = none →
         ∀ q ∈ ps, q.isActive = true → ¬((q.hoursBeforeShow : Rat) ≤ hrs)) ∧
    (∀ (st : St) (now : Int),
       (st.booking.status = .pending ∨ st.booking.status = .confirmed) →
       (∀ p, getApplicablePolicy st.policies (hoursBeforeShow st now) = some p →
          p.isRefundable = false) →
       cancelBooking st now = (st, .policyViolation)) := by
  refine ⟨?_, ?_, ?_⟩
  · intro ps hrs p hp
    unfold getApplicablePolicy at hp
    have hmem := pickTopPolicy_mem hp
    have hmax := pickTopPolicy_max hp
    rw [List.mem_filter] at hmem
    obtain ⟨hps, hpred⟩ := hmem
    simp only [Bool.and_eq_true, decide_eq_true_eq] at hpred
    refine ⟨hps, hpred.1, hpred.2, ?_⟩
    intro q hq hqa hqh
    exact hmax q (List.mem_filter.mpr (by simp [hq, hqa, hqh]))
  · intro ps hrs hnone q hq hqa hqh
    unfold getApplicablePolicy at hnone
    have hfil := pickTopPolicy_eq_none hnone
    have : q ∈ ps.filter (fun p =>
        p.isActive && decide ((p.hoursBeforeShow : Rat) ≤ hrs)) :=
      List.mem_filter.mpr (by simp [hq, hqa, hqh])
    rw [hfil] at this
    simp at this
  · intro st now hst hpol
    unfold cancelBooking
    rw [if_neg (not_not_intro hst)]
    cases heq : getApplicablePolicy st.policies (hoursBeforeShow st now) with
    | none => simp [heq]
    | some p =>
      have := hpol p heq
      simp [heq, this]

/-- Witness for C9 at concrete inputs: with only the four-hour policy
configured, two hours before the show no policy applies and the
cancellation of the fixture pending booking is refused without any
state change. -/
theorem applicable_policy_selection_witness :
    basePolicy ∈ [basePolicy] ∧
    (basePolicy.hoursBeforeShow : Rat) ≤ 5 ∧
    cancelBooking { pendingSt with showStart := 7200 } 0 =
      ({ pendingSt with showStart := 7200 }, .policyViolation) := by
  have hsome : getApplicablePolicy [basePolicy] 5 = some basePolicy := by
    norm_num [getApplicablePolicy, pickTopPolicy, basePolicy]
  have hnone : getApplicablePolicy
      { pendingSt with showStart := 7200 }.policies
      (hoursBeforeShow { pendingSt with showStart := 7200 } 0) = none := by
    norm_num [getApplicablePolicy, pickTopPolicy, hoursBeforeShow,
      pendingSt, basePolicy]
  refine ⟨(applicable_policy_selection.1 [basePolicy] 5 basePolicy hsome).1,
    (applicable_policy_selection.1 [basePolicy] 5 basePolicy hsome).2.2.1, ?_⟩
  exact applicable_policy_selection.2.2 _ 0 (Or.inl rfl)
    (fun p hp => by rw [hnone] at hp; cases hp)

/-- C2, counterexample: at instant 1000 the fixture pending booking
has reached its deadline (`expires_at = now`), yet a verified payment
confirmation still succeeds and transitions it to confirmed — the
confirmation endpoint performs no read-time expiry check, refuting
the claim that such a booking never transitions to confirmed. -/
theorem expired_booking_still_confirmable_cex :
    pendingBooking.status = .pending ∧
    pendingBooking.expiresAt ≤ 1000 ∧
    (confirmPayment pendingSt 7 true 1000).2 = .ok ∧
    (confirmPayment pendingSt 7 true 1000).1.booking.status = .confirmed := by
  decide

/-- C3, counterexample: replaying the verified confirmation on the
already confirmed fixture booking succeeds and appends yet another
pending-to-confirmed history row (three in total, two already from
the first call) and another notification — it is not a no-op and the
transition does not have exactly one history entry. -/
theorem confirm_replay_not_noop_cex :
    confirmedSt.booking.status = .confirmed ∧
    (confirmedSt.txns.filter (fun t => t.status = .success)).length = 1 ∧
    (confirmedSt.history.filter
      (fun e => e.prev = some .pending && e.next = .confirmed)).length = 2 ∧
    (confirmPayment confirmedSt 7 true 600).2 = .ok ∧
    ((confirmPayment confirmedSt 7 true 600).1.history.filter
      (fun e => e.prev = some .pending && e.next = .confirmed)).length = 3 ∧
    (confirmPayment confirmedSt 7 true 600).1 ≠ confirmedSt := by
  decide

/-- C5, counterexample: replaying a success webhook for the already
successful transaction of the confirmed fixture booking is accepted
and enqueues a second, duplicate confirmation notification, and
re-stamps the booking's confirmation time — refuting the no-op
claim. -/
theorem webhook_replay_duplicate_notification_cex :
    confirmedSt.booking.status = .confirmed ∧
    confirmedSt.txns = [⟨7, .success, 37400, some 500⟩] ∧
    (paymentWebhook confirmedSt ⟨true, .wsuccess, 7⟩ 800).2 = .ok ∧
    (paymentWebhook confirmedSt ⟨true, .wsuccess, 7⟩ 800).1.notifs.length
      = confirmedSt.notifs.length + 1 ∧
    (paymentWebhook confirmedSt ⟨true, .wsuccess, 7⟩ 800).1.booking.confirmedAt
      = some 800 ∧
    confirmedSt.booking.confirmedAt = some 500 := by
  decide

/-- C6: the one-time-extension guard is dead code, so a second timer
extension succeeds.  At instant 940 (60 seconds remaining) the
extension succeeds and moves the deadline to 1540; at instant 1440
(100 seconds remaining) a second call succeeds again with a new
deadline 2040 instead of failing as already extended; a call with
more than 120 seconds remaining is refused as too early. -/
theorem extend_timer_twice_succeeds :
    pendingBooking.status = .pending ∧
    pendingBooking.expiresAt = 1000 ∧
    (extendTimer pendingSt 940).2 = .extended 1540 ∧
    (extendTimer pendingSt 940).1.booking.expiresAt = 1540 ∧
    (extendTimer (extendTimer pendingSt 940).1 1440).2 = .extended 2040 ∧
    (extendTimer (extendTimer pendingSt 940).1 1440).2 ≠ .alreadyExtended ∧
    (extendTimer pendingSt 500).2 = .tooEarly := by
  decide

/-- Fixture for C7: the pending booking with two initiated
transactions, as produced by initiating payment twice. -/
def twoTxnSt : St :=
  { pendingSt with txns := [⟨7, .initiated, 37400, none⟩,
                            ⟨8, .initiated, 37400, none⟩] }

/-- C7: confirming two different verified transactions of the same
booking one after the other marks both of them successful — nothing
enforces the at-most-one-success invariant. -/
theorem two_transactions_both_success :
    twoTxnSt.booking.status = .pending ∧
    (twoTxnSt.txns.filter (fun t => t.status = .success)).length = 0 ∧
    initiatePayment pendingSt 8 100 =
      ({ pendingSt with txns := pendingSt.txns ++ [⟨8, .initiated, 37400, none⟩] },
       .ok) ∧
    ((confirmPayment (confirmPayment twoTxnSt 7 true 400).1 8 true 450).1.txns.filter
      (fun t => t.status = .success)).length = 2 := by
  decide

/-- C4: cancelling the confirmed, paid fixture booking (refundable
policy applicable, one successful transaction) does set it cancelled
with `cancelled_at` stamped and all seats released, but creates no
refund — the view checks the booking's status for confirmed after
having already overwritten it with cancelled — and writes two
cancelled history rows (signal and view) instead of exactly one. -/
theorem cancel_paid_booking_creates_no_refund :
    confirmedSt.booking.status = .confirmed ∧
    (confirmedSt.txns.filter (fun t => t.status = .success)).length = 1 ∧
    (cancelBooking confirmedSt 700).1.refunds = [] ∧
    (cancelBooking confirmedSt 700).1.booking.status = .cancelled ∧
    (cancelBooking confirmedSt 700).1.booking.cancelledAt = some 700 ∧
    (cancelBooking confirmedSt 700).1.seats.all (fun s => s.isAvailable) = true ∧
    ((cancelBooking confirmedSt 700).1.history.filter
      (fun e => e.next = .cancelled)).length = 2 := by
  have hp : getApplicablePolicy confirmedSt.policies
      (hoursBeforeShow confirmedSt 700) = some basePolicy := by
    norm_num [getApplicablePolicy, pickTopPolicy, hoursBeforeShow,
      confirmedSt, basePolicy]
  simp only [cancelBooking, hp]
  decide

/-- After `releaseSeats`, every seat of the released id set reads
available. -/
lemma releaseSeats_avail (st : St) (ids : List Nat) :
    ∀ s ∈ (releaseSeats st ids).seats, s.sid ∈ ids → s.isAvailable = true := by
  intro s hs hsid
  unfold releaseSeats at hs
  simp only [List.mem_map] at hs
  rcases hs with ⟨a, amem, rfl⟩
  by_cases h : a.sid ∈ ids
  · simp [h]
  · simp only [if_neg h] at hsid ⊢
    exact absurd hsid h

/-- Replacing, in a transaction list, every row of the found
transaction's id by a row with the same id leaves `find?` returning
the replacement. -/
lemma find_map_replace {l : List TxnRec} {tid : Nat} {t t' : TxnRec}
    (hfind : l.find? (fun u => u.tid = tid) = some t) (ht' : t'.tid = t.tid) :
    (l.map (fun u => if u.tid = t.tid then t' else u)).find?
      (fun u => u.tid = tid) = some t' := by
  have htid : t.tid = tid := by
    have := List.find?_some hfind
    simpa using this
  induction l with
  | nil => simp at hfind
  | cons a l ih =>
    by_cases ha : a.tid = tid
    · have hat : a = t := by
        rw [List.find?_cons_of_pos] at hfind
        · exact Option.some.inj hfind
        · simpa using ha
      subst hat
      rw [List.map_cons, if_pos rfl]
      rw [List.find?_cons_of_pos]
      simp [ht'.trans htid]
    · have hstep : l.find? (fun u => u.tid = tid) = some t := by
        rw [List.find?_cons_of_neg] at hfind
        · exact hfind
        · simpa using ha
      have hne : a.tid ≠ t.tid := by rw [htid]; exact ha
      simp only [List.map_cons, if_neg hne]
      rw [List.find?_cons_of_neg]
      · exact ih hstep
      · simpa using ha

/-- C2 (amended): a pending booking at or past its deadline cannot
initiate payment — the initiation endpoint marks it expired and
releases its seats — but payment confirmation performs no expiry
check, so a verified confirmation still transitions the same booking
to confirmed. -/
theorem expired_booking_payment_asymmetry
    (st : St) (tid newTid : Nat) (t : TxnRec) (now : Int)
    (hpend : st.booking.status = .pending)
    (hexp : st.booking.expiresAt ≤ now)
    (hfind : st.txns.find? (fun u => u.tid = tid) = some t) :
    (initiatePayment st newTid now).2 = .expired ∧
    (initiatePayment st newTid now).1.booking.status = .expired ∧
    (∀ s ∈ (initiatePayment st newTid now).1.seats,
       s.sid ∈ st.booking.seatIds → s.isAvailable = true) ∧
    (confirmPayment st tid true now).2 = .ok ∧
    (confirmPayment st tid true now).1.booking.status = .confirmed := by
  have hinit : initiatePayment st newTid now =
      (releaseSeats (bookingSave st { st.booking with status := .expired } now)
        st.booking.seatIds, .expired) := by
    unfold initiatePayment
    rw [if_neg (by simp [hpend]), if_pos hexp]
  constructor
  · rw [hinit]
  constructor
  · rw [hinit]
    simp [bookingSave, releaseSeats, hpend]
  constructor
  · rw [hinit]
    have hsb : (bookingSave st { st.booking with status := .expired } now).seats
        = st.seats := by
      simp [bookingSave, hpend]
    intro s hs hsid
    exact releaseSeats_avail _ _ s hs hsid
  · unfold confirmPayment
    rw [hfind]
    simp [transactionSave, txnPostSave, bookingSave, hpend, if_pos]

/-- Witness for C2 at the fixture: at the exact deadline instant the
pending fixture booking is refused payment initiation as expired, yet
its verified confirmation succeeds. -/
theorem expired_booking_payment_asymmetry_witness :
    (initiatePayment pendingSt 9 1000).2 = .expired ∧
    (initiatePayment pendingSt 9 1000).1.booking.status = .expired ∧
    (confirmPayment pendingSt 7 true 1000).2 = .ok ∧
    (confirmPayment pendingSt 7 true 1000).1.booking.status = .confirmed := by
  have h := expired_booking_payment_asymmetry pendingSt 7 9
    ⟨7, .initiated, 37400, none⟩ 1000 rfl (by decide) (by decide)
  exact ⟨h.1, h.2.1, h.2.2.2.1, h.2.2.2.2⟩

/-- C3 (amended): a second verified confirmation on an already
confirmed booking succeeds again and leaves the booking confirmed
(with `confirmed_at` re-stamped), keeps the transaction successful,
and is not a no-op: it appends one more pending-to-confirmed history
row and enqueues one more confirmation notification per call. -/
theorem confirm_replay_appends_history
    (st : St) (tid : Nat) (t : TxnRec) (now : Int)
    (hconf : st.booking.status = .confirmed)
    (hfind : st.txns.find? (fun u => u.tid = tid) = some t) :
    (confirmPayment st tid true now).2 = .ok ∧
    (confirmPayment st tid true now).1.booking =
      { st.booking with status := .confirmed, confirmedAt := some now } ∧
    (confirmPayment st tid true now).1.txns.find? (fun u => u.tid = tid) =
      some { t with status := .success, completedAt := some now } ∧
    (confirmPayment st tid true now).1.history =
      st.history ++ [⟨some .pending, .confirmed, .user, .paymentCompleted⟩] ∧
    (confirmPayment st tid true now).1.notifs =
      st.notifs ++ [.bookingConfirmed] ∧
    (confirmPayment st tid true now).1.seats = st.seats := by
  have hred : confirmPayment st tid true now =
      ({ st with
          txns := st.txns.map (fun u => if u.tid = t.tid then
            { t with status := .success, completedAt := some now } else u),
          booking := { st.booking with status := .confirmed, confirmedAt := some now },
          history := st.history ++
            [⟨some .pending, .confirmed, .user, .paymentCompleted⟩],
          notifs := st.notifs ++ [.bookingConfirmed] }, .ok) := by
    unfold confirmPayment
    rw [hfind]
    simp [transactionSave, txnPostSave, bookingSave, hconf]
  refine ⟨by rw [hred], by rw [hred], ?_, by rw [hred], by rw [hred], by rw [hred]⟩
  rw [hred]
  exact find_map_replace hfind rfl

/-- Witness for C3 at the fixture: replaying the verified
confirmation of transaction 7 on the confirmed fixture at instant 600
succeeds, re-stamps the confirmation, and appends one more history
row and notification. -/
theorem confirm_replay_appends_history_witness :
    (confirmPayment confirmedSt 7 true 600).2 = .ok ∧
    (confirmPayment confirmedSt 7 true 600).1.booking =
      { confirmedSt.booking with status := .confirmed, confirmedAt := some 600 } ∧
    (confirmPayment confirmedSt 7 true 600).1.history =
      confirmedSt.history ++
        [⟨some .pending, .confirmed, .user, .paymentCompleted⟩] ∧
    (confirmPayment confirmedSt 7 true 600).1.notifs =
      confirmedSt.notifs ++ [.bookingConfirmed] := by
  have h := confirm_replay_appends_history confirmedSt 7
    ⟨7, .success, 37400, some 500⟩ 600 rfl (by decide)
  exact ⟨h.1, h.2.1, h.2.2.2.1, h.2.2.2.2.1⟩

/-- C5 (amended): replaying a success webhook for a transaction of an
already confirmed booking is accepted without any status regression
or history row — booking status stays confirmed, the transaction
stays successful — but the code performs no idempotence check: it
re-stamps `confirmed_at`/`completed_at` and enqueues a duplicate
confirmation notification. -/
theorem webhook_replay_preserves_confirmed
    (st : St) (tid : Nat) (t : TxnRec) (now : Int)
    (hconf : st.booking.status = .confirmed)
    (hfind : st.txns.find? (fun u => u.tid = tid) = some t) :
    (paymentWebhook st ⟨true, .wsuccess, tid⟩ now).2 = .ok ∧
    (paymentWebhook st ⟨true, .wsuccess, tid⟩ now).1.booking =
      { st.booking with status := .confirmed, confirmedAt := some now } ∧
    (paymentWebhook st ⟨true, .wsuccess, tid⟩ now).1.txns.find?
      (fun u => u.tid = tid) =
      some { t with status := .success, completedAt := some now } ∧
    (paymentWebhook st ⟨true, .wsuccess, tid⟩ now).1.history = st.history ∧
    (paymentWebhook st ⟨true, .wsuccess, tid⟩ now).1.notifs =
      st.notifs ++ [.bookingConfirmed] ∧
    (paymentWebhook st ⟨true, .wsuccess, tid⟩ now).1.seats = st.seats ∧
    (paymentWebhook st ⟨true, .wsuccess, tid⟩ now).1.refunds = st.refunds := by
  have hred : paymentWebhook st ⟨true, .wsuccess, tid⟩ now =
      ({ st with
          txns := st.txns.map (fun u => if u.tid = t.tid then
            { t with status := .success, completedAt := some now } else u),
          booking := { st.booking with status := .confirmed, confirmedAt := some now },
          notifs := st.notifs ++ [.bookingConfirmed] }, .ok) := by
    unfold paymentWebhook
    rw [hfind]
    simp [transactionSave, txnPostSave, bookingSave, hconf]
  refine ⟨by rw [hred], by rw [hred], ?_, by rw [hred], by rw [hred],
    by rw [hred], by rw [hred]⟩
  rw [hred]
  exact find_map_replace hfind rfl

/-- Witness for C5 at the fixture: replaying the success webhook for
transaction 7 on the confirmed fixture at instant 800 keeps the
booking confirmed and the history unchanged, while adding a duplicate
notification. -/
theorem webhook_replay_preserves_confirmed_witness :
    (paymentWebhook confirmedSt ⟨true, .wsuccess, 7⟩ 800).2 = .ok ∧
    (paymentWebhook confirmedSt ⟨true, .wsuccess, 7⟩ 800).1.booking =
      { confirmedSt.booking with status := .confirmed, confirmedAt := some 800 } ∧
    (paymentWebhook confirmedSt ⟨true, .wsuccess, 7⟩ 800).1.history =
      confirmedSt.history ∧
    (paymentWebhook confirmedSt ⟨true, .wsuccess, 7⟩ 800).1.notifs =
      confirmedSt.notifs ++ [.bookingConfirmed] := by
  have h := webhook_replay_preserves_confirmed confirmedSt 7
    ⟨7, .success, 37400, some 500⟩ 800 rfl (by decide)
  exact ⟨h.1, h.2.1, h.2.2.2.1, h.2.2.2.2.1⟩

/-- Rounding to the nearest paisa is off by at most half a paisa:
the rounded value (in paise) times 100 stays within 50 hundredths of
the exact value. -/
lemma roundHalfEvenDiv100_close (n : Nat) :
    n ≤ 100 * roundHalfEvenDiv100 n + 50 ∧
    100 * roundHalfEvenDiv100 n ≤ n + 50 := by
  simp only [roundHalfEvenDiv100]
  refine ⟨?_, ?_⟩ <;>
    · split
      · omega
      · split
        · omega
        · split <;> omega

/-- Scenario A showtime: active, base price 150 rupees (15000 paise),
starting at instant 20000. -/
def activeShow : ShowtimeRec := ⟨1, true, 20000, 15000, 20000, 30000⟩

/-- An available regular seat on screen 1. -/
def freeSeatA : SeatRec := ⟨1, 1, .regular, true, false⟩

/-- A second available regular seat on screen 1. -/
def freeSeatB : SeatRec := ⟨2, 1, .regular, true, false⟩

/-- The booking Scenario A produces: subtotal 300.00, tax 54.00,
fee 20.00, total 374.00 (all held in paise). -/
def bookingScenario : BookingRec :=
  { status := .pending, seatIds := [1, 2], subtotal := 30000
    taxAmount := 5400, convenienceFee := 2000, totalAmount := 37400
    expiresAt := 900, confirmedAt := none, cancelledAt := none }

/-- Helper: a successful creation writes exactly the signal's
creation history row. -/
lemma createBooking_ok_history (st : ShowtimeRec) (seats : List SeatRec)
    (seatIds : List Nat) (now : Int)
    (h : (createBooking st seats seatIds now).ok = true) :
    (createBooking st seats seatIds now).history =
      [⟨none, .pending, .system, .bookingCreated⟩] := by
  by_cases hc : (seats.filter (seatEligible st seatIds)).length = seatIds.length
  · unfold createBooking
    rw [if_pos hc]
  · unfold createBooking at h
    rw [if_neg hc] at h
    simp at h

/-- C8: every successfully created booking is priced with subtotal
the sum of the showtime's per-tier prices over the selected seats,
tax the half-even rounding of 18 percent of the subtotal (within half
a paisa of the exact product), the fixed 20.00 convenience fee, and
total their sum; Scenario A (two regular seats at 150.00) yields
300.00 / 54.00 / 20.00 / 374.00. -/
theorem booking_pricing :
    (∀ (st : ShowtimeRec) (seats : List SeatRec) (seatIds : List Nat)
       (now : Int) (b : BookingRec),
       (createBooking st seats seatIds now).booking = some b →
       b.subtotal = ((seats.filter (seatEligible st seatIds)).map
         (getPriceForSeat st)).sum ∧
       b.taxAmount = taxOn b.subtotal ∧
       18 * b.subtotal ≤ 100 * b.taxAmount + 50 ∧
       100 * b.taxAmount ≤ 18 * b.subtotal + 50 ∧
       b.convenienceFee = convenienceFeePaise ∧
       b.totalAmount = b.subtotal + b.taxAmount + b.convenienceFee) ∧
    (createBooking activeShow [freeSeatA, freeSeatB] [1, 2] 0).booking =
      some bookingScenario := by
  constructor
  · intro st seats seatIds now b h
    by_cases hc : (seats.filter (seatEligible st seatIds)).length
        = seatIds.length
    · unfold createBooking at h
      rw [if_pos hc] at h
      simp only [Option.some.injEq] at h
      subst h
      refine ⟨rfl, rfl, ?_, ?_, rfl, rfl⟩ <;>
        · have hb := roundHalfEvenDiv100_close
            (((seats.filter (seatEligible st seatIds)).map
              (getPriceForSeat st)).sum * 18)
          simp only [taxOn]
          omega
    · unfold createBooking at h
      rw [if_neg hc] at h
      simp at h
  · decide

/-- Witness for C8 at Scenario A: the pricing relations instantiated
on the concrete created booking. -/
theorem booking_pricing_witness :
    bookingScenario.subtotal =
      (([freeSeatA, freeSeatB].filter (seatEligible activeShow [1, 2])).map
        (getPriceForSeat activeShow)).sum ∧
    bookingScenario.taxAmount = taxOn bookingScenario.subtotal ∧
    bookingScenario.totalAmount = bookingScenario.subtotal
      + bookingScenario.taxAmount + bookingScenario.convenienceFee := by
  have h := booking_pricing.1 activeShow [freeSeatA, freeSeatB] [1, 2] 0
    bookingScenario booking_pricing.2
  exact ⟨h.1, h.2.1, h.2.2.2.2.2⟩

/-- C10: every booking created through the creation endpoint leaves
exactly two history rows recording the creation (empty previous
status, new status pending): the row the post-save signal writes
(`changed_by` null) and the row the view writes (`changed_by` the
user). -/
theorem booking_creation_two_history_rows
    (st : ShowtimeRec) (seats : List SeatRec) (seatIds : List Nat) (now : Int)
    (hok : (createBookingView st seats seatIds now).ok = true) :
    (createBookingView st seats seatIds now).history =
      [⟨none, .pending, .system, .bookingCreated⟩,
       ⟨none, .pending, .user, .bookingCreated⟩] ∧
    ((createBookingView st seats seatIds now).history.filter
      (fun e => e.prev = none && e.next = .pending)).length = 2 := by
  cases hact : st.isActive with
  | false =>
    unfold createBookingView at hok
    rw [hact] at hok
    simp at hok
  | true =>
    by_cases hfut : st.showStart ≤ now
    · unfold createBookingView at hok
      rw [hact] at hok
      simp [hfut] at hok
    · by_cases hco : (createBooking st seats seatIds now).ok = true
      · have hh := createBooking_ok_history st seats seatIds now hco
        have h1 : (createBookingView st seats seatIds now).history =
            [⟨none, .pending, .system, .bookingCreated⟩,
             ⟨none, .pending, .user, .bookingCreated⟩] := by
          unfold createBookingView
          rw [hact]
          simp [hfut, hco, hh]
        rw [h1]
        exact ⟨rfl, by decide⟩
      · unfold createBookingView at hok
        rw [hact] at hok
        simp [hfut, hco] at hok

/-- Witness for C10 at Scenario A: two available seats booked on the
active future showtime leave exactly the signal row and the view row
in the history. -/
theorem booking_creation_two_history_rows_witness :
    (createBookingView activeShow [freeSeatA, freeSeatB] [1, 2] 0).history =
      [⟨none, .pending, .system, .bookingCreated⟩,
       ⟨none, .pending, .user, .bookingCreated⟩] :=
  (booking_creation_two_history_rows activeShow [freeSeatA, freeSeatB]
    [1, 2] 0 (by decide)).1

/-- Core of the atomicity argument: when creation succeeds under a
store with distinct seat ids, (1) every requested seat id denotes a
seat satisfying the full eligibility predicate, and (2) the ids
snapshotted from the locked selection are exactly the requested
ids. -/
lemma createBooking_ok_core
    (st : ShowtimeRec) (seats : List SeatRec) (seatIds : List Nat) (now : Int)
    (hnd : (seats.map SeatRec.sid).Nodup)
    (hok : (createBooking st seats seatIds now).ok = true) :
    (∀ s ∈ seats, s.sid ∈ seatIds → seatEligible st seatIds s = true) ∧
    (∀ x, x ∈ (seats.filter (seatEligible st seatIds)).map SeatRec.sid
      ↔ x ∈ seatIds) := by
  have hlen : (seats.filter (seatEligible st seatIds)).length
      = seatIds.length := by
    by_contra hne2
    unfold createBooking at hok
    rw [if_neg hne2] at hok
    simp at hok
  have hmnd : ((seats.filter (seatEligible st seatIds)).map SeatRec.sid).Nodup :=
    hnd.sublist ((List.filter_sublist seats).map SeatRec.sid)
  have hmsub : ∀ x ∈ (seats.filter (seatEligible st seatIds)).map SeatRec.sid,
      x ∈ seatIds := by
    intro x hx
    rcases List.mem_map.mp hx with ⟨a, ha, rfl⟩
    have hp := (List.mem_filter.mp ha).2
    unfold seatEligible at hp
    simp only [Bool.and_eq_true, decide_eq_true_eq] at hp
    exact hp.1.1.1
  have hsubd : (seats.filter (seatEligible st seatIds)).map SeatRec.sid
      ⊆ seatIds.dedup :=
    fun x hx => List.mem_dedup.mpr (hmsub x hx)
  have hsp := hmnd.subperm hsubd
  have hlen2 : seatIds.dedup.length
      ≤ ((seats.filter (seatEligible st seatIds)).map SeatRec.sid).length := by
    have h2 := (seatIds.dedup_sublist).length_le
    have h1 : ((seats.filter (seatEligible st seatIds)).map SeatRec.sid).length
        = seatIds.length := by
      rw [List.length_map]; exact hlen
    omega
  have hperm := hsp.perm_of_length_le hlen2
  have hiff : ∀ x, x ∈ (seats.filter (seatEligible st seatIds)).map SeatRec.sid
      ↔ x ∈ seatIds := by
    intro x
    constructor
    · exact hmsub x
    · intro hx
      exact hperm.mem_iff.mpr (List.mem_dedup.mpr hx)
  refine ⟨?_, hiff⟩
  intro s hs hsid
  have hsm : s.sid ∈ (seats.filter (seatEligible st seatIds)).map SeatRec.sid :=
    (hiff s.sid).mpr hsid
  rcases List.mem_map.mp hsm with ⟨a, ha, heq⟩
  have haseats : a ∈ seats := (List.mem_filter.mp ha).1
  have haa : a = s := List.inj_on_of_nodup_map hnd haseats hs heq
  exact haa ▸ (List.mem_filter.mp ha).2

/-- C1: booking creation is all-or-nothing over the requested seat
set.  On success every requested seat was available, unblocked and on
the showtime's screen, the store afterwards differs exactly by the
requested seats having been flipped to unavailable, and the created
booking is pending and owns exactly the requested seat ids.  On
failure the store is unchanged and no booking exists. -/
theorem booking_create_all_or_nothing
    (st : ShowtimeRec) (seats : List SeatRec) (seatIds : List Nat) (now : Int)
    (_hne : seatIds ≠ []) (hnd : (seats.map SeatRec.sid).Nodup) :
    ((createBooking st seats seatIds now).ok = true →
       (∀ s ∈ seats, s.sid ∈ seatIds →
          s.isAvailable = true ∧ s.isBlocked = false ∧ s.screen = st.screen) ∧
       (createBooking st seats seatIds now).seats =
         seats.map (fun s => if s.sid ∈ seatIds
           then { s with isAvailable := false } else s) ∧
       (createBooking st seats seatIds now).booking ≠ none ∧
       (∀ b, (createBooking st seats seatIds now).booking = some b →
          b.status = .pending ∧ ∀ x, x ∈ b.seatIds ↔ x ∈ seatIds)) ∧
    ((createBooking st seats seatIds now).ok = false →
       (createBooking st seats seatIds now).seats = seats ∧
       (createBooking st seats seatIds now).booking = none) := by
  constructor
  · intro hok
    have hcore := createBooking_ok_core st seats seatIds now hnd hok
    have hlen : (seats.filter (seatEligible st seatIds)).length
        = seatIds.length := by
      by_contra hne2
      unfold createBooking at hok
      rw [if_neg hne2] at hok
      simp at hok
    have heligmem : ∀ a : SeatRec, seatEligible st seatIds a = true
        → a.sid ∈ seatIds := by
      intro a he
      unfold seatEligible at he
      simp only [Bool.and_eq_true, decide_eq_true_eq] at he
      exact he.1.1.1
    refine ⟨?_, ?_, ?_, ?_⟩
    · intro s hs hsid
      have he := hcore.1 s hs hsid
      unfold seatEligible at he
      simp only [Bool.and_eq_true, decide_eq_true_eq,
        Bool.not_eq_true'] at he
      exact ⟨he.1.2, he.2, he.1.1.2⟩
    · unfold createBooking
      rw [if_pos hlen]
      apply List.map_congr_left
      intro a ha
      by_cases hmem : a.sid ∈ seatIds
      · simp [hcore.1 a ha hmem, hmem]
      · have he : seatEligible st seatIds a = false := by
          cases hcase : seatEligible st seatIds a
          · rfl
          · exact absurd (heligmem a hcase) hmem
        simp [he, hmem]
    · unfold createBooking
      rw [if_pos hlen]
      simp
    · intro b hb
      unfold createBooking at hb
      rw [if_pos hlen] at hb
      simp only [Option.some.injEq] at hb
      subst hb
      exact ⟨rfl, hcore.2⟩
  · intro hfail
    by_cases hlen : (seats.filter (seatEligible st seatIds)).length
        = seatIds.length
    · unfold createBooking at hfail
      rw [if_pos hlen] at hfail
      simp at hfail
    · unfold createBooking
      rw [if_neg hlen]
      exact ⟨rfl, rfl⟩

/-- Witness for C1 at Scenario A: requesting the two distinct
available seats succeeds (they flip to held and the booking owns ids
1 and 2), and requesting an id that is not on the screen fails
leaving the store untouched. -/
theorem booking_create_all_or_nothing_witness :
    (createBooking activeShow [freeSeatA, freeSeatB] [1, 2] 0).seats =
      [{ freeSeatA with isAvailable := false },
       { freeSeatB with isAvailable := false }] ∧
    (createBooking activeShow [freeSeatA, freeSeatB] [1, 3] 0).seats =
      [freeSeatA, freeSeatB] ∧
    (createBooking activeShow [freeSeatA, freeSeatB] [1, 3] 0).booking
      = none := by
  have h1 := (booking_create_all_or_nothing activeShow [freeSeatA, freeSeatB]
    [1, 2] 0 (by decide) (by decide)).1 (by decide)
  have h2 := (booking_create_all_or_nothing activeShow [freeSeatA, freeSeatB]
    [1, 3] 0 (by decide) (by decide)).2 (by decide)
  refine ⟨?_, h2.1, h2.2⟩
  rw [h1.2.1]
  decide

end MovieBooking
